import Mathlib

/-!
Verification of the coarse-graining and correlation engine of the
`UBC---Spring-2018---code` repository (`analysis/css.py`, `analysis/cuu.py`,
`init.py`, `plot/mpl_tools.py`) against its natural-language specification.

Python floats are modelled as exact rationals (`ℚ`), machine integers as
`ℤ`/`ℕ`, exceptions as `Except String`.  Functions of the repository that are
imported from modules not present in this source tree
(`active_particles.analysis.coarse_graining`, `...analysis.neighbours`,
`...maths`) are modelled from the specification; each such definition carries a
doc comment starting with `Modelled from the spec:`.  Transcendental functions
(the radial coarse-graining kernel, `np.exp`, `**`, `np.sqrt`) are abstracted
as explicit function parameters, since the specification fixes only their
algebraically relevant properties.
-/

/-- Python float modulo: for a divisor `m`, `x % m = x - m * floor (x / m)`.
Used by the minimum-image convention. -/
def pymod (x m : ℚ) : ℚ := x - m * ⌊x / m⌋

/-- Minimum-image displacement component, `((x + box/2) mod box) - box/2`,
as used at `css.py` lines 179-180 and specified in section 4.2. -/
def minImage (box x : ℚ) : ℚ := pymod (x + box / 2) box - box / 2

/-- Squared periodic (minimum-image) distance between two points of the square
box. -/
def sqPeriodicDist (box : ℚ) (p q : ℚ × ℚ) : ℚ :=
  (minImage box (p.1 - q.1)) ^ 2 + (minImage box (p.2 - q.2)) ^ 2

/-- Modelled from the spec: `NeighboursGrid.get_neighbours`
(module `active_particles.analysis.neighbours`, absent from this source tree).
Section 8 requires it to equal the brute-force set
`{i : periodic_distance(p, pos_i) ≤ r}`; distances are compared squared to
stay inside the rationals. -/
def get_neighbours (positions : List (ℚ × ℚ)) (box r : ℚ) (point : ℚ × ℚ) :
    List ℕ :=
  (List.range positions.length).filter fun i =>
    sqPeriodicDist box (positions.getD i (0, 0)) point ≤ r ^ 2

/-- Modelled from the spec: `CoarseGraining.average`
(module `active_particles.analysis.coarse_graining`, absent from this source
tree).  Section 4.2: `average(sample) = Σ_i w_i * sample_i / Σ_i w_i`, with the
sentinel value `0` when the weight sum is `0`. -/
def cgAverage (weights samples : List ℚ) : ℚ :=
  if weights.sum = 0 then 0
  else (List.zipWith (· * ·) weights samples).sum / weights.sum

/-- Relative positions of the neighbours with the query point as centre of the
frame, with periodic boundary conditions (`css.py` lines 179-180; in `cuu.py`
the same quantity is obtained through `maths.relative_positions`, whose
minimum-image formula is given in spec section 4.2). -/
def sv_pos_wrcut (box : ℚ) (point : ℚ × ℚ) (positions : List (ℚ × ℚ))
    (wrcut : List ℕ) : List (ℚ × ℚ) :=
  wrcut.map fun i =>
    (minImage box ((positions.getD i (0, 0)).1 - point.1),
     minImage box ((positions.getD i (0, 0)).2 - point.2))

/-- Modelled from the spec: the weights of the radial coarse-graining kernel
(section 4.2): a decaying function of the distance with hard cutoff `r_cut`.
The kernel shape is not fixed by the specification, so it is abstracted as a
function `K` of the squared distance. -/
def sv_weights (K : ℚ → ℚ) (r_cut : ℚ) (pw : List (ℚ × ℚ)) : List ℚ :=
  pw.map fun p =>
    if p.1 ^ 2 + p.2 ^ 2 ≤ r_cut ^ 2 then K (p.1 ^ 2 + p.2 ^ 2) else 0

/-- Displacements of the neighbour particles between frames `time` and
`time + dt`, from the unwrapped trajectory (`css.py` lines 181-183,
`cuu.py` lines 69-71). -/
def sv_dis (u_traj : ℕ → ℕ → ℚ × ℚ) (time dt : ℕ) (wrcut : List ℕ) :
    List (ℚ × ℚ) :=
  List.zipWith (fun a b => (a.1 - b.1, a.2 - b.2))
    (wrcut.map (u_traj (time + dt))) (wrcut.map (u_traj time))

/-- Coarse-grained average at the query point of a sample that is a function
of each neighbour's relative position and displacement (`css.py`
lines 190-192). -/
def sv_avg (K : ℚ → ℚ) (r_cut box : ℚ) (point : ℚ × ℚ)
    (positions : List (ℚ × ℚ)) (u_traj : ℕ → ℕ → ℚ × ℚ) (time dt : ℕ)
    (wrcut : List ℕ) (f : ℚ × ℚ → ℚ × ℚ → ℚ) : ℚ :=
  cgAverage (sv_weights K r_cut (sv_pos_wrcut box point positions wrcut))
    (List.zipWith f (sv_pos_wrcut box point positions wrcut)
      (sv_dis u_traj time dt wrcut))

/-- Coarse-grained local density: the kernel average of the constant
sample `1` (`css.py` line 187). -/
def sv_rho (K : ℚ → ℚ) (r_cut box : ℚ) (point : ℚ × ℚ)
    (positions : List (ℚ × ℚ)) (wrcut : List ℕ) : ℚ :=
  cgAverage (sv_weights K r_cut (sv_pos_wrcut box point positions wrcut))
    (List.replicate (sv_pos_wrcut box point positions wrcut).length 1)

/-- Embeds `css.strain_vorticity` (`css.py` lines 130-198).  The neighbours
grid is a function parameter `nbrs`, as in the source where it is the argument
`neighbours_grid`. -/
def strain_vorticity (K : ℚ → ℚ) (nbrs : ℚ × ℚ → List ℕ) (point : ℚ × ℚ)
    (time dt : ℕ) (positions : List (ℚ × ℚ)) (u_traj : ℕ → ℕ → ℚ × ℚ)
    (sigma r_cut box_size : ℚ) : ℚ × ℚ :=
  let wrcut := nbrs point
  if wrcut = [] then (0, 0) else
  let rho := sv_rho K r_cut box_size point positions wrcut
  if rho = 0 then (0, 0) else
  let avg := sv_avg K r_cut box_size point positions u_traj time dt wrcut
  let Ax := avg fun p _ => p.1
  let Ay := avg fun p _ => p.2
  let Aux := avg fun _ d => d.1
  let Auy := avg fun _ d => d.2
  let Auxy := avg fun p d => d.1 * p.2
  let Auyx := avg fun p d => d.2 * p.1
  ((1 / 2) * ((Ay * Aux + Ax * Auy) / ((rho * sigma) ^ 2)
      - (Auxy + Auyx) / (rho * sigma ^ 2)),
    (Ax * Auy - Ay * Aux) / ((rho * sigma) ^ 2)
      - (Auyx - Auxy) / (rho * sigma ^ 2))

/-- The claim's closed-form linearized shear strain, written exactly as in the
specification (section 4.3), with both terms divided by `ρ σ²`. -/
def spec_strain (K : ℚ → ℚ) (nbrs : ℚ × ℚ → List ℕ) (point : ℚ × ℚ)
    (time dt : ℕ) (positions : List (ℚ × ℚ)) (u_traj : ℕ → ℕ → ℚ × ℚ)
    (sigma r_cut box_size : ℚ) : ℚ :=
  let wrcut := nbrs point
  let rho := sv_rho K r_cut box_size point positions wrcut
  let avg := sv_avg K r_cut box_size point positions u_traj time dt wrcut
  (1 / 2) * (((avg fun p _ => p.2) * (avg fun _ d => d.1)
        + (avg fun p _ => p.1) * (avg fun _ d => d.2)) / (rho * sigma ^ 2)
      - ((avg fun p d => d.1 * p.2) + (avg fun p d => d.2 * p.1))
        / (rho * sigma ^ 2))

/-- The claim's displacement vorticity, written exactly as in the
specification (section 4.3), with both terms divided by `ρ σ²`. -/
def spec_vorticity (K : ℚ → ℚ) (nbrs : ℚ × ℚ → List ℕ) (point : ℚ × ℚ)
    (time dt : ℕ) (positions : List (ℚ × ℚ)) (u_traj : ℕ → ℕ → ℚ × ℚ)
    (sigma r_cut box_size : ℚ) : ℚ :=
  let wrcut := nbrs point
  let rho := sv_rho K r_cut box_size point positions wrcut
  let avg := sv_avg K r_cut box_size point positions u_traj time dt wrcut
  ((avg fun p _ => p.1) * (avg fun _ d => d.2)
      - (avg fun p _ => p.2) * (avg fun _ d => d.1)) / (rho * sigma ^ 2)
    - ((avg fun p d => d.2 * p.1) - (avg fun p d => d.1 * p.2))
      / (rho * sigma ^ 2)

theorem zipWith_mul_replicate_one (w : List ℚ) :
    List.zipWith (· * ·) w (List.replicate w.length 1) = w := by
  induction w with
  | nil => rfl
  | cons x xs ih => simp [List.replicate_succ, ih]

/-- The kernel average of the constant sample 1 is either the sentinel 0 (zero
weight sum) or exactly 1. -/
theorem sv_rho_eq_one_of_ne_zero (K : ℚ → ℚ) (r_cut box : ℚ) (point : ℚ × ℚ)
    (positions : List (ℚ × ℚ)) (wrcut : List ℕ)
    (h : sv_rho K r_cut box point positions wrcut ≠ 0) :
    sv_rho K r_cut box point positions wrcut = 1 := by
  unfold sv_rho cgAverage at *
  set w := sv_weights K r_cut (sv_pos_wrcut box point positions wrcut) with hw
  have hlen : (sv_pos_wrcut box point positions wrcut).length = w.length := by
    simp [hw, sv_weights]
  rw [hlen] at h ⊢
  by_cases hs : w.sum = 0
  · simp [hs] at h
  · simp only [hs, if_false, zipWith_mul_replicate_one]
    exact div_self hs

/-- C1: for every query point with a non-empty neighbour set and nonzero
coarse-grained density ρ, `strain_vorticity` returns exactly the closed-form
strain and vorticity of the specification, with both terms of each divided by
`ρ σ²`.  (The source divides the first terms by `(ρ σ)²`, but ρ — the kernel
average of the constant 1 — equals 1 whenever it is nonzero, so the two
denominators agree.) -/
theorem strain_vorticity_matches_spec (K : ℚ → ℚ) (nbrs : ℚ × ℚ → List ℕ)
    (point : ℚ × ℚ) (time dt : ℕ) (positions : List (ℚ × ℚ))
    (u_traj : ℕ → ℕ → ℚ × ℚ) (sigma r_cut box_size : ℚ)
    (h1 : nbrs point ≠ [])
    (h2 : sv_rho K r_cut box_size point positions (nbrs point) ≠ 0) :
    strain_vorticity K nbrs point time dt positions u_traj sigma r_cut box_size
      = (spec_strain K nbrs point time dt positions u_traj sigma r_cut box_size,
         spec_vorticity K nbrs point time dt positions u_traj sigma r_cut
           box_size) := by
  have hrho := sv_rho_eq_one_of_ne_zero K r_cut box_size point positions
    (nbrs point) h2
  unfold strain_vorticity spec_strain spec_vorticity
  simp only [if_neg h1, hrho, one_ne_zero, if_false, one_mul, one_pow]

/-- Witness for C1 at a concrete input: one particle sitting at the query
point, unit kernel, and a rigid translation by one box frame per unit time. -/
theorem strain_vorticity_matches_spec_witness :
    (fun _ : ℚ × ℚ => [0]) (0, 0) ≠ ([] : List ℕ)
    ∧ sv_rho (fun _ => 1) 1 10 (0, 0) [(0, 0)] [0] ≠ 0
    ∧ strain_vorticity (fun _ => 1) (fun _ => [0]) (0, 0) 0 1 [(0, 0)]
        (fun t _ => ((t : ℚ), 0)) 1 1 10
      = (spec_strain (fun _ => 1) (fun _ => [0]) (0, 0) 0 1 [(0, 0)]
          (fun t _ => ((t : ℚ), 0)) 1 1 10,
         spec_vorticity (fun _ => 1) (fun _ => [0]) (0, 0) 0 1 [(0, 0)]
          (fun t _ => ((t : ℚ), 0)) 1 1 10) :=
  ⟨by simp, by norm_num [sv_rho, sv_weights, sv_pos_wrcut, cgAverage, minImage,
      pymod],
    strain_vorticity_matches_spec (fun _ => 1) (fun _ => [0]) (0, 0) 0 1
      [(0, 0)] (fun t _ => ((t : ℚ), 0)) 1 1 10 (by simp)
      (by norm_num [sv_rho, sv_weights, sv_pos_wrcut, cgAverage, minImage,
        pymod])⟩

/-- Modelled from the spec: `maths.wo_mean` (module `active_particles.maths`,
absent from this source tree); section 4.3 describes the relative displacement
as "displacement with the ensemble mean subtracted". -/
def wo_mean (l : List (ℚ × ℚ)) : List (ℚ × ℚ) :=
  l.map fun p =>
    (p.1 - (l.map Prod.fst).sum / l.length, p.2 - (l.map Prod.snd).sum / l.length)

/-- Modelled from the spec: the weights of `SquareUniformCG` (module
`active_particles.analysis.coarse_graining`, absent from this source tree);
section 4.2: weight 1 if the neighbour falls in the square cell of half-width
`dL/2` centred at the point, else 0. -/
def squareCGWeights (dL : ℚ) (pw : List (ℚ × ℚ)) : List ℚ :=
  pw.map fun p => if |p.1| ≤ dL / 2 ∧ |p.2| ≤ dL / 2 then 1 else 0

/-- Kernel average of a vector sample, broadcasting over the two components
(spec section 4.2). -/
def cgAverageVec (weights : List ℚ) (samples : List (ℚ × ℚ)) : ℚ × ℚ :=
  (cgAverage weights (samples.map Prod.fst),
   cgAverage weights (samples.map Prod.snd))

/-- The local variables bound by `cuu.displacement` before its return
statement (`cuu.py` lines 67-83), in order: `density`, `norm_displacement`
(dead: the two subsequent uses spell the name `norm_displacemet`), the
coarse-grained `displacement`, `relative_displacement` and
`displacement_direction`.  The `try` block at lines 80-83 evaluates
`displacement/norm_displacemet`, whose name lookup fails, so the `NameError`
is caught and the direction is set to `[0, 0]` unconditionally. -/
def displacement_core (pysqrt : ℚ → ℚ) (point : ℚ × ℚ) (time dt : ℕ)
    (positions : List (ℚ × ℚ)) (u_traj : ℕ → ℕ → ℚ × ℚ) (dL box_size : ℚ)
    (wrcut : List ℕ) : ℚ × ℚ × (ℚ × ℚ) × (ℚ × ℚ) × (ℚ × ℚ) :=
  let pos_wrcut := sv_pos_wrcut box_size point positions wrcut
  let pos0 := wrcut.map (u_traj time)
  let pos1 := wrcut.map (u_traj (time + dt))
  let dis := List.zipWith (fun a b => (a.1 - b.1, a.2 - b.2)) pos1 pos0
  let rdis := List.zipWith (fun a b => (a.1 - b.1, a.2 - b.2))
    (wo_mean pos1) (wo_mean pos0)
  let w := squareCGWeights dL pos_wrcut
  let u := cgAverageVec w dis
  let rel := cgAverageVec w rdis
  let density : ℚ := if u ≠ (0, 0) then 1 else 0
  let nrm := pysqrt (u.1 ^ 2 + u.2 ^ 2)
  let direction : ℚ × ℚ := (0, 0)
  (density, nrm, u, rel, direction)

/-- Embeds `cuu.displacement` (`cuu.py` lines 19-86).  With no neighbour the
function returns the four zero sentinels (lines 64-65).  Otherwise its return
statement (line 85) reads the name `norm_displacemet`, which is bound nowhere
(line 79 binds `norm_displacement`), outside of any `try`, so the call raises
`NameError`. -/
def displacement (pysqrt : ℚ → ℚ) (nbrs : ℚ × ℚ → List ℕ) (point : ℚ × ℚ)
    (time dt : ℕ) (positions : List (ℚ × ℚ)) (u_traj : ℕ → ℕ → ℚ × ℚ)
    (dL box_size : ℚ) :
    Except String ((ℚ × ℚ) × (ℚ × ℚ) × (ℚ × ℚ) × (ℚ × ℚ)) :=
  let wrcut := nbrs point
  if wrcut = [] then .ok ((0, 0), (0, 0), (0, 0), (0, 0)) else
  let _locals := displacement_core pysqrt point time dt positions u_traj dL
    box_size wrcut
  .error "NameError: name norm_displacemet is not defined"

/-- C2: with an empty neighbour set `strain_vorticity` returns `(0, 0)`, with
zero coarse-grained density it returns `(0, 0)`, and with an empty neighbour
set `displacement` returns the four `[0, 0]` sentinels; none of these
degenerate cases raises or produces an undefined value. -/
theorem degenerate_neighbourhoods (K : ℚ → ℚ) (nbrs nbrs2 : ℚ × ℚ → List ℕ)
    (point point2 : ℚ × ℚ) (time dt time2 dt2 : ℕ)
    (positions positions2 : List (ℚ × ℚ)) (u_traj u_traj2 : ℕ → ℕ → ℚ × ℚ)
    (sigma r_cut box_size : ℚ) (pysqrt : ℚ → ℚ) (dL box2 : ℚ) :
    (nbrs point = [] →
      strain_vorticity K nbrs point time dt positions u_traj sigma r_cut
        box_size = (0, 0))
    ∧ (sv_rho K r_cut box_size point positions (nbrs point) = 0 →
      strain_vorticity K nbrs point time dt positions u_traj sigma r_cut
        box_size = (0, 0))
    ∧ (nbrs2 point2 = [] →
      displacement pysqrt nbrs2 point2 time2 dt2 positions2 u_traj2 dL box2
        = .ok ((0, 0), (0, 0), (0, 0), (0, 0))) := by
  refine ⟨fun h => ?_, fun h => ?_, fun h => ?_⟩
  · simp [strain_vorticity, h]
  · by_cases he : nbrs point = []
    · simp [strain_vorticity, he]
    · simp [strain_vorticity, he, h]
  · simp [displacement, h]

/-- Witness for C2 at concrete degenerate inputs (no particles at all). -/
theorem degenerate_neighbourhoods_witness :
    strain_vorticity (fun _ => 1) (fun _ => []) (0, 0) 0 1 []
        (fun _ _ => (0, 0)) 1 1 10 = (0, 0)
    ∧ displacement (fun _ => 0) (fun _ => []) (0, 0) 0 1 []
        (fun _ _ => (0, 0)) 1 10 = .ok ((0, 0), (0, 0), (0, 0), (0, 0)) :=
  ⟨(degenerate_neighbourhoods (fun _ => 1) (fun _ => []) (fun _ => []) (0, 0)
      (0, 0) 0 1 0 1 [] [] (fun _ _ => (0, 0)) (fun _ _ => (0, 0)) 1 1 10
      (fun _ => 0) 1 10).1 rfl,
   (degenerate_neighbourhoods (fun _ => 1) (fun _ => []) (fun _ => []) (0, 0)
      (0, 0) 0 1 0 1 [] [] (fun _ _ => (0, 0)) (fun _ _ => (0, 0)) 1 1 10
      (fun _ => 0) 1 10).2.2 rfl⟩

/-- C3 (code bug): at a concrete input with one neighbour — one particle at
the query point, displaced by `(1, 0)` over the lag — the call to
`displacement` raises `NameError` instead of returning a tuple, because the
return statement at `cuu.py` line 85 reads the unbound name
`norm_displacemet`; moreover the bound `displacement_direction` is the zero
vector even though the coarse-grained displacement is `(1, 0)` with nonzero
norm, because the division at line 81 also reads the unbound name and the
resulting `NameError` is swallowed by the bare `except`. -/
theorem displacement_raises_on_nonempty_neighbourhood :
    displacement (fun _ => 0) (fun _ => [0]) (0, 0) 0 1 [(0, 0)]
        (fun t _ => ((t : ℚ), 0)) 10 10
      = .error "NameError: name norm_displacemet is not defined"
    ∧ (displacement_core (fun _ => 0) (0, 0) 0 1 [(0, 0)]
        (fun t _ => ((t : ℚ), 0)) 10 10 [0]).2.2.1 = (1, 0)
    ∧ (displacement_core (fun _ => 0) (0, 0) 0 1 [(0, 0)]
        (fun t _ => ((t : ℚ), 0)) 10 10 [0]).2.2.2.2 = (0, 0) := by
  refine ⟨by simp [displacement], ?_, ?_⟩
  · norm_num [displacement_core, sv_pos_wrcut, squareCGWeights, cgAverageVec,
      cgAverage, minImage, pymod]
  · norm_num [displacement_core]

/-- C4 (code bug): at a concrete input with one neighbour whose displacement
over the lag is zero, the variable `density` computed at `cuu.py` line 78 is
`0`, not the claimed `1`, because the source derives it from whether the
coarse-grained displacement is nonzero rather than from the presence of
neighbours (contradicting the function's own docstring, line 53); in addition
the call itself raises `NameError` before returning anything (line 85). -/
theorem displacement_density_not_presence :
    (displacement_core (fun _ => 0) (0, 0) 0 1 [(0, 0)]
        (fun _ _ => (0, 0)) 10 10 [0]).1 = 0
    ∧ displacement (fun _ => 0) (fun _ => [0]) (0, 0) 0 1 [(0, 0)]
        (fun _ _ => (0, 0)) 10 10
      = .error "NameError: name norm_displacemet is not defined" := by
  constructor
  · norm_num [displacement_core, sv_pos_wrcut, squareCGWeights, cgAverageVec,
      cgAverage, minImage, pymod]
  · simp [displacement]

/-- The two exception classes distinguished by `init.get_env`: `ValueError`,
which the intermediate handlers catch, and every other exception, which only
the outermost bare `except` catches. -/
inductive PyExc where
  | valueError : PyExc
  | otherError : PyExc
deriving DecidableEq

/-- Embeds `init.get_env` (`init.py` lines 13-40).  The process environment is
`env`; `vartypeS` models applying `vartype` to the environment string,
`pyEvalFn` models `eval` on that string (producing a value of type `V`), and
`vartypeV` models applying `vartype` to the evaluated value.  The nested
`try` blocks translate to the nested matches: a `ValueError` from the direct
conversion falls through to the `eval` path; any failure there — including the
re-raised `ValueError` and any non-`ValueError` — reaches the outer bare
`except`, which returns `default`.  A missing variable (`KeyError`) also
reaches the outer handler. -/
def get_env {α V : Type} (env : String → Option String) (var_name : String)
    (default : α) (vartypeS : String → Except PyExc α)
    (pyEvalFn : String → Except PyExc V) (vartypeV : V → Except PyExc α) :
    α :=
  match env var_name with
  | none => default
  | some s =>
    match vartypeS s with
    | .ok v => v
    | .error PyExc.valueError =>
      match pyEvalFn s with
      | .error _ => default
      | .ok ev =>
        match vartypeV ev with
        | .ok v => v
        | .error _ => default
    | .error PyExc.otherError => default

/-- C9 counterexample: with the environment variable `X` set to `"1+1"` and
`vartype = int`, the direct conversion `int("1+1")` raises `ValueError`, but
`eval("1+1")` yields `2` and `int(2)` succeeds, so `get_env` returns `2` and
not the default `0` — refuting the clause "on any conversion or evaluation
failure it returns default". -/
theorem get_env_eval_fallback_returns_value :
    get_env (fun v => if v = "X" then some "1+1" else none) "X" (0 : ℤ)
      (fun _ => .error PyExc.valueError) (fun _ => .ok (2 : ℤ))
      (fun v => .ok v) = 2
    ∧ (2 : ℤ) ≠ 0 := ⟨rfl, by decide⟩

/-- C9 (amended): `get_env` never propagates an exception: a missing variable
yields `default`; a successful direct conversion yields the converted value; a
`ValueError` from the direct conversion followed by a successful
`vartype(eval(...))` yields that value; and every other combination — a
non-`ValueError` direct failure, an `eval` failure, or a conversion failure on
the evaluated value — yields `default`. -/
theorem get_env_never_propagates {α V : Type} (env : String → Option String)
    (var_name : String) (default : α) (vartypeS : String → Except PyExc α)
    (pyEvalFn : String → Except PyExc V) (vartypeV : V → Except PyExc α) :
    (env var_name = none →
      get_env env var_name default vartypeS pyEvalFn vartypeV = default)
    ∧ (∀ s a, env var_name = some s → vartypeS s = .ok a →
      get_env env var_name default vartypeS pyEvalFn vartypeV = a)
    ∧ (∀ s, env var_name = some s → vartypeS s = .error PyExc.otherError →
      get_env env var_name default vartypeS pyEvalFn vartypeV = default)
    ∧ (∀ s v a, env var_name = some s → vartypeS s = .error PyExc.valueError →
      pyEvalFn s = .ok v → vartypeV v = .ok a →
      get_env env var_name default vartypeS pyEvalFn vartypeV = a)
    ∧ (∀ s e, env var_name = some s → vartypeS s = .error PyExc.valueError →
      pyEvalFn s = .error e →
      get_env env var_name default vartypeS pyEvalFn vartypeV = default)
    ∧ (∀ s v e, env var_name = some s → vartypeS s = .error PyExc.valueError →
      pyEvalFn s = .ok v → vartypeV v = .error e →
      get_env env var_name default vartypeS pyEvalFn vartypeV = default) := by
  refine ⟨fun h => ?_, fun s a h hS => ?_, fun s h hS => ?_,
    fun s v a h hS hE hV => ?_, fun s e h hS hE => ?_,
    fun s v e h hS hE hV => ?_⟩
  · simp only [get_env, h]
  · simp only [get_env, h, hS]
  · simp only [get_env, h, hS]
  · simp only [get_env, h, hS, hE, hV]
  · simp only [get_env, h, hS, hE]
  · simp only [get_env, h, hS, hE, hV]

/-- Witness for C9's amended theorem: a concrete environment where `eval`
fails, so the default is returned. -/
theorem get_env_never_propagates_witness :
    get_env (fun v => if v = "Y" then some "oops" else none) "Y" (7 : ℤ)
      (fun _ => .error PyExc.valueError)
      (fun _ => (Except.error PyExc.otherError : Except PyExc ℤ))
      (fun v => .ok v) = 7 :=
  (get_env_never_propagates (fun v => if v = "Y" then some "oops" else none)
    "Y" (7 : ℤ) (fun _ => .error PyExc.valueError)
    (fun _ => .error PyExc.otherError) (fun v => .ok v)).2.2.2.2.1 "oops"
    PyExc.otherError rfl rfl rfl

/-- Embeds `mpl_tools._powerlaw` (`mpl_tools.py` lines 376-391):
`y0 * ((x / x0) ** slope)`.  The real power `**` is abstracted as the
parameter `pypow`; CPython and numpy guarantee `1.0 ** s = 1.0` for every
`s`, which is the hypothesis used by the anchor-point theorem. -/
def powerlawFit (pypow : ℚ → ℚ → ℚ) (x0 y0 slope x : ℚ) : ℚ :=
  y0 * pypow (x / x0) slope

/-- Embeds `mpl_tools._exponential` (`mpl_tools.py` lines 393-408):
`y0 * np.exp((x - x0) * slope)`, with `np.exp` abstracted as `pyexpF`
(satisfying `exp 0 = 1`). -/
def exponentialFit (pyexpF : ℚ → ℚ) (x0 y0 slope x : ℚ) : ℚ :=
  y0 * pyexpF ((x - x0) * slope)

/-- C10: both fitting-line functions pass through their anchor point
`(x0, y0)` — the powerlaw for every `x0 ≠ 0`, the exponential for every
`x0`. -/
theorem fitting_lines_anchor (pypow : ℚ → ℚ → ℚ)
    (hpow : ∀ s, pypow 1 s = 1) (pyexpF : ℚ → ℚ) (hexp : pyexpF 0 = 1)
    (x0 y0 slope : ℚ) (hx0 : x0 ≠ 0) :
    powerlawFit pypow x0 y0 slope x0 = y0
    ∧ exponentialFit pyexpF x0 y0 slope x0 = y0 := by
  constructor
  · rw [powerlawFit, div_self hx0, hpow, mul_one]
  · rw [exponentialFit, sub_self, zero_mul, hexp, mul_one]

/-- Witness for C10 at a concrete anchor `(3, 5)` with slope `2`. -/
theorem fitting_lines_anchor_witness :
    powerlawFit (fun _ _ => 1) 3 5 2 3 = 5
    ∧ exponentialFit (fun _ => 1) 3 5 2 3 = 5 :=
  fitting_lines_anchor (fun _ _ => 1) (fun _ => rfl) (fun _ => 1) rfl 3 5 2
    (by norm_num)

/-- Embeds `np.linspace(a, b, n)` with `endpoint=True`: `n` evenly spaced
values from `a` to `b` (`[a]` for `n = 1`, empty for `n = 0`). -/
def pyLinspace (a b : ℚ) (n : ℕ) : List ℚ :=
  if n = 0 then []
  else if n = 1 then [a]
  else (List.range n).map fun i : ℕ => a + (b - a) * (i : ℚ) / ((n : ℚ) - 1)

/-- Python `int()` applied to a float: truncation toward zero. -/
def pyTrunc (q : ℚ) : ℤ := if 0 ≤ q then ⌊q⌋ else ⌈q⌉

/-- Embeds `OrderedDict.fromkeys`: removes duplicates keeping the first
occurrence of each value, preserving order (`css.py` line 421,
`cuu.py` line 341). -/
def dedupFirst : List ℤ → List ℤ
  | [] => []
  | x :: xs => x :: dedupFirst (xs.filter fun y => y ≠ x)
termination_by l => l.length
decreasing_by
  simp only [List.length_cons]
  exact Nat.lt_succ_of_le (List.length_filter_le _ _)

/-- Embeds the computation of the frames at which the fields are calculated in
COMPUTE mode (`css.py` lines 421-424 and `cuu.py` lines 341-344):
`OrderedDict.fromkeys(map(int, np.linspace(init_frame, Nentries - dt - 1,
int_max)))`. -/
def times (init_frame Nentries dt : ℤ) (int_max : ℕ) : List ℤ :=
  dedupFirst
    (((pyLinspace (init_frame : ℚ) ((Nentries - dt - 1 : ℤ) : ℚ) int_max)).map
      pyTrunc)

theorem pyTrunc_mono {x y : ℚ} (h : x ≤ y) : pyTrunc x ≤ pyTrunc y := by
  unfold pyTrunc
  by_cases hx : 0 ≤ x
  · rw [if_pos hx, if_pos (hx.trans h)]
    exact Int.floor_le_floor h
  · rw [if_neg hx]
    by_cases hy : 0 ≤ y
    · rw [if_pos hy]
      calc ⌈x⌉ ≤ 0 := Int.ceil_le.mpr (by push_cast; exact le_of_not_le hx)
        _ ≤ ⌊y⌋ := Int.le_floor.mpr (by exact_mod_cast hy)
    · rw [if_neg hy]
      exact Int.ceil_le_ceil h

theorem pyTrunc_le_of_le {b : ℤ} {x : ℚ} (h : x ≤ (b : ℚ)) : pyTrunc x ≤ b := by
  unfold pyTrunc
  split
  · exact (Int.floor_le_floor h).trans (le_of_eq (Int.floor_intCast b))
  · exact Int.ceil_le.mpr h

theorem le_pyTrunc_of_le {a : ℤ} {x : ℚ} (h : (a : ℚ) ≤ x) : a ≤ pyTrunc x := by
  unfold pyTrunc
  split
  · exact Int.le_floor.mpr h
  · exact (le_of_eq (Int.ceil_intCast a).symm).trans (Int.ceil_le_ceil h)

theorem mem_of_mem_dedupFirst : ∀ (l : List ℤ) (x : ℤ),
    x ∈ dedupFirst l → x ∈ l
  | [], x, h => by simp [dedupFirst] at h
  | a :: as, x, h => by
    rw [dedupFirst] at h
    rcases List.mem_cons.mp h with h1 | h2
    · simp [h1]
    · exact List.mem_cons_of_mem _
        (List.mem_of_mem_filter (mem_of_mem_dedupFirst _ x h2))
termination_by l => l.length
decreasing_by
  simp only [List.length_cons]
  exact Nat.lt_succ_of_le (List.length_filter_le _ _)

theorem dedupFirst_length_le : ∀ l : List ℤ, (dedupFirst l).length ≤ l.length
  | [] => by simp [dedupFirst]
  | a :: as => by
    rw [dedupFirst]
    simp only [List.length_cons]
    exact Nat.succ_le_succ
      ((dedupFirst_length_le _).trans (List.length_filter_le _ _))
termination_by l => l.length
decreasing_by
  simp only [List.length_cons]
  exact Nat.lt_succ_of_le (List.length_filter_le _ _)

/-- First-occurrence deduplication of a nondecreasing list is strictly
increasing. -/
theorem dedupFirst_pairwise : ∀ l : List ℤ, l.Pairwise (· ≤ ·) →
    (dedupFirst l).Pairwise (· < ·)
  | [], _ => by simp [dedupFirst]
  | a :: as, h => by
    obtain ⟨ha, has⟩ := List.pairwise_cons.mp h
    rw [dedupFirst]
    refine List.pairwise_cons.mpr
      ⟨?_, dedupFirst_pairwise _ (List.Pairwise.filter _ has)⟩
    intro y hy
    have hyf := mem_of_mem_dedupFirst _ y hy
    have h1 : y ∈ as := List.mem_of_mem_filter hyf
    have h2 : y ≠ a := by
      have := (List.mem_filter.mp hyf).2
      simpa using this
    exact lt_of_le_of_ne (ha y h1) (Ne.symm h2)
termination_by l => l.length
decreasing_by
  simp only [List.length_cons]
  exact Nat.lt_succ_of_le (List.length_filter_le _ _)

theorem pyLinspace_length (a b : ℚ) (n : ℕ) : (pyLinspace a b n).length = n := by
  unfold pyLinspace
  split
  · simp [*]
  · split
    · simp [*]
    · simp

theorem pyLinspace_pairwise (a b : ℚ) (n : ℕ) (hab : a ≤ b) :
    (pyLinspace a b n).Pairwise (· ≤ ·) := by
  unfold pyLinspace
  split
  · simp
  · split
    · simp
    · rename_i h0 h1
      have hn : 2 ≤ n := by omega
      refine List.pairwise_map.mpr ((List.pairwise_lt_range n).imp ?_)
      intro i j hij
      have hden : (0 : ℚ) < (n : ℚ) - 1 := by
        have : (2 : ℚ) ≤ (n : ℚ) := by exact_mod_cast hn
        linarith
      have hij2 : (i : ℚ) ≤ (j : ℚ) := by exact_mod_cast Nat.le_of_lt hij
      have hba : (0 : ℚ) ≤ b - a := by linarith
      have hmul : (b - a) * (i : ℚ) / ((n : ℚ) - 1)
          ≤ (b - a) * (j : ℚ) / ((n : ℚ) - 1) := by gcongr
      linarith

theorem pyLinspace_mem_bounds (a b : ℚ) (n : ℕ) (hab : a ≤ b) (x : ℚ)
    (hx : x ∈ pyLinspace a b n) : a ≤ x ∧ x ≤ b := by
  unfold pyLinspace at hx
  split at hx
  · simp at hx
  · split at hx
    · rw [List.mem_singleton] at hx
      exact ⟨le_of_eq hx.symm, hx ▸ hab⟩
    · rename_i h0 h1
      have hn : 2 ≤ n := by omega
      obtain ⟨i, hi, rfl⟩ := List.mem_map.mp hx
      have hi2 : i < n := List.mem_range.mp hi
      have hden : (0 : ℚ) < (n : ℚ) - 1 := by
        have : (2 : ℚ) ≤ (n : ℚ) := by exact_mod_cast hn
        linarith
      have hiq : (i : ℚ) ≤ (n : ℚ) - 1 := by
        have : (i : ℚ) + 1 ≤ (n : ℚ) := by exact_mod_cast hi2
        linarith
      have hba : (0 : ℚ) ≤ b - a := by linarith
      have hnum : (0 : ℚ) ≤ (b - a) * (i : ℚ) :=
        mul_nonneg hba (by positivity)
      constructor
      · have : (0 : ℚ) ≤ (b - a) * (i : ℚ) / ((n : ℚ) - 1) :=
          div_nonneg hnum (le_of_lt hden)
        linarith
      · have hup : (b - a) * (i : ℚ) / ((n : ℚ) - 1) ≤ b - a := by
          rw [div_le_iff₀ hden]
          exact mul_le_mul_of_nonneg_left hiq hba
        linarith

/-- C5: under the precondition `init_frame ≤ Nentries - dt - 1`, the sequence
of time origins is strictly increasing, duplicate-free, of length at most
`int_max`, and every origin lies between `init_frame` and
`Nentries - dt - 1` inclusive. -/
theorem times_ordered_bounded (init_frame Nentries dt : ℤ) (int_max : ℕ)
    (h : init_frame ≤ Nentries - dt - 1) :
    (times init_frame Nentries dt int_max).Pairwise (· < ·)
    ∧ (times init_frame Nentries dt int_max).Nodup
    ∧ (times init_frame Nentries dt int_max).length ≤ int_max
    ∧ ∀ x ∈ times init_frame Nentries dt int_max,
        init_frame ≤ x ∧ x ≤ Nentries - dt - 1 := by
  have hab : ((init_frame : ℚ)) ≤ (((Nentries - dt - 1 : ℤ)) : ℚ) := by
    exact_mod_cast h
  have hsorted : ((pyLinspace (init_frame : ℚ) (((Nentries - dt - 1 : ℤ)) : ℚ)
      int_max).map pyTrunc).Pairwise (· ≤ ·) :=
    List.pairwise_map.mpr
      ((pyLinspace_pairwise _ _ _ hab).imp fun hxy => pyTrunc_mono hxy)
  have hpw : (times init_frame Nentries dt int_max).Pairwise (· < ·) :=
    dedupFirst_pairwise _ hsorted
  refine ⟨hpw, hpw.imp fun hlt => ne_of_lt hlt, ?_, ?_⟩
  · calc (times init_frame Nentries dt int_max).length
        ≤ ((pyLinspace (init_frame : ℚ) (((Nentries - dt - 1 : ℤ)) : ℚ)
            int_max).map pyTrunc).length := dedupFirst_length_le _
      _ = int_max := by rw [List.length_map, pyLinspace_length]
  · intro x hx
    obtain ⟨q, hqL, rfl⟩ := List.mem_map.mp (mem_of_mem_dedupFirst _ x hx)
    have hb := pyLinspace_mem_bounds _ _ _ hab q hqL
    exact ⟨le_pyTrunc_of_le hb.1, pyTrunc_le_of_le hb.2⟩

/-- Witness for C5: with `init_frame = 0`, `Nentries = 5`, `dt = 1` and
`int_max = 3` the precondition `0 ≤ 3` holds and the theorem applies. -/
theorem times_ordered_bounded_witness :
    (times 0 5 1 3).Pairwise (· < ·) ∧ (times 0 5 1 3).Nodup
    ∧ (times 0 5 1 3).length ≤ 3 :=
  ⟨(times_ordered_bounded 0 5 1 3 (by decide)).1,
   (times_ordered_bounded 0 5 1 3 (by decide)).2.1,
   (times_ordered_bounded 0 5 1 3 (by decide)).2.2.1⟩

/-- Embeds `np.reshape(flat, (N, N))`: row `i` is the slice
`flat[i*N : i*N + N]`. -/
def np_reshape2 {α : Type} (N : ℕ) (flat : List α) : List (List α) :=
  (List.range N).map fun i => (flat.drop (i * N)).take N

/-- Embeds `np.transpose` on an `N × N` nested list: row `j` of the result
collects entry `j` of each input row.  (In `cuu.py` the axes argument
`(1, 0, 2)` transposes the two outer axes of an `(N, N, 2)` array, which is
this same operation with pairs as entries.) -/
def np_transpose2 {α : Type} (N : ℕ) (g : List (List α)) : List (List α) :=
  (List.range N).map fun j => g.filterMap fun row => row[j]?

/-- Embeds the `correct_grid` lambda of `css.strain_vorticity_grid`
(`css.py` lines 264-265) and of `cuu.displacement_grid` (`cuu.py`
lines 154-155): `np.transpose(np.reshape(grid, (N, N)))[::-1]`. -/
def correct_grid {α : Type} (N : ℕ) (flat : List α) : List (List α) :=
  (np_transpose2 N (np_reshape2 N flat)).reverse

theorem filterMap_getElem_all_isSome {α β : Type} (f : α → Option β) :
    ∀ (l : List α), (∀ x ∈ l, (f x).isSome) → ∀ i : ℕ,
      (l.filterMap f)[i]? = l[i]?.bind f
  | [], _, i => by simp
  | x :: xs, h, i => by
    obtain ⟨b, hb⟩ := Option.isSome_iff_exists.mp (h x (List.mem_cons_self x xs))
    rw [List.filterMap_cons_some hb]
    cases i with
    | zero => simp [hb]
    | succ n =>
      simp only [List.getElem?_cons_succ]
      exact filterMap_getElem_all_isSome f xs
        (fun y hy => h y (List.mem_cons_of_mem _ hy)) n

theorem np_reshape2_length {α : Type} (N : ℕ) (flat : List α) :
    (np_reshape2 N flat).length = N := by
  simp [np_reshape2]

theorem getElem?_isSome_of_lt {α : Type} (l : List α) (j : ℕ)
    (h : j < l.length) : l[j]?.isSome := by
  rw [List.getElem?_eq_getElem h]
  rfl

theorem filterMap_length_all_isSome {α β : Type} (f : α → Option β) :
    ∀ l : List α, (∀ x ∈ l, (f x).isSome) → (l.filterMap f).length = l.length
  | [], _ => rfl
  | x :: xs, h => by
    obtain ⟨b, hb⟩ := Option.isSome_iff_exists.mp (h x (List.mem_cons_self x xs))
    rw [List.filterMap_cons_some hb, List.length_cons, List.length_cons,
      filterMap_length_all_isSome f xs fun y hy => h y (List.mem_cons_of_mem _ hy)]

theorem np_reshape2_row_length {α : Type} (N : ℕ) (flat : List α)
    (hlen : flat.length = N * N) (row : List α)
    (hrow : row ∈ np_reshape2 N flat) : row.length = N := by
  obtain ⟨i, hi, rfl⟩ := List.mem_map.mp hrow
  have hi2 : i < N := List.mem_range.mp hi
  have h1 : i * N + N ≤ N * N := by
    have h2 : (i + 1) * N ≤ N * N :=
      Nat.mul_le_mul_right N (Nat.succ_le_of_lt hi2)
    calc i * N + N = (i + 1) * N := by ring
      _ ≤ N * N := h2
  rw [List.length_take, List.length_drop, hlen]
  omega

theorem np_reshape2_getElem {α : Type} (N : ℕ) (flat : List α) (i j : ℕ)
    (hi : i < N) (hj : j < N) :
    (np_reshape2 N flat)[i]?.bind (fun row => row[j]?) = flat[i * N + j]? := by
  rw [np_reshape2, List.getElem?_map, List.getElem?_range hi]
  simp only [Option.map_some', Option.some_bind]
  rw [List.getElem?_take, if_pos hj, List.getElem?_drop]

theorem correct_grid_length {α : Type} (N : ℕ) (flat : List α) :
    (correct_grid N flat).length = N := by
  simp [correct_grid, np_transpose2]

theorem correct_grid_row_length {α : Type} (N : ℕ) (flat : List α)
    (hlen : flat.length = N * N) (row : List α)
    (hrow : row ∈ correct_grid N flat) : row.length = N := by
  rw [correct_grid, List.mem_reverse] at hrow
  obtain ⟨j, hjr, rfl⟩ := List.mem_map.mp hrow
  have hj : j < N := List.mem_range.mp hjr
  have hall : ∀ r ∈ np_reshape2 N flat, ((fun r : List α => r[j]?) r).isSome := by
    intro r hr2
    exact getElem?_isSome_of_lt r j
      (by rw [np_reshape2_row_length N flat hlen r hr2]; exact hj)
  exact (filterMap_length_all_isSome _ _ hall).trans (np_reshape2_length N flat)

theorem correct_grid_getElem {α : Type} (N : ℕ) (flat : List α) (i j : ℕ)
    (hlen : flat.length = N * N) (hi : i < N) (hj : j < N) :
    (correct_grid N flat)[N - 1 - j]?.bind (fun row => row[i]?)
      = flat[i * N + j]? := by
  rw [correct_grid]
  have htl : (np_transpose2 N (np_reshape2 N flat)).length = N := by
    simp [np_transpose2]
  have hrev : (np_transpose2 N (np_reshape2 N flat)).reverse[N - 1 - j]?
      = (np_transpose2 N (np_reshape2 N flat))[j]? := by
    rw [List.getElem?_reverse (by omega : N - 1 - j < _)]
    congr 1
    omega
  rw [hrev, np_transpose2, List.getElem?_map, List.getElem?_range hj]
  simp only [Option.map_some', Option.some_bind]
  have hall : ∀ row ∈ np_reshape2 N flat, ((fun row => row[j]?) row).isSome := by
    intro row hrow2
    have := np_reshape2_row_length N flat hlen row hrow2
    rw [Option.isSome_iff_exists]
    exact ⟨row[j], (List.getElem?_eq_some).mpr ⟨by omega, rfl⟩⟩
  rw [filterMap_getElem_all_isSome _ _ hall i]
  exact np_reshape2_getElem N flat i j hi hj

/-- Embeds Python name lookup in a set of bindings; a missing name raises
`NameError`. -/
def pyLookup {α : Type} (bound : List (String × α)) (name : String) :
    Except String α :=
  match bound.find? fun kv => kv.1 == name with
  | some kv => .ok kv.2
  | none => .error ("NameError: name " ++ name ++ " is not defined")

/-- Embeds Python `list(map(f, xs))` when `f` may raise: the first exception
aborts the whole construction. -/
def pyMapExc {α β : Type} (f : α → Except String β) :
    List α → Except String (List β)
  | [] => .ok []
  | x :: xs =>
    match f x with
    | .error e => .error e
    | .ok y =>
      match pyMapExc f xs with
      | .error e => .error e
      | .ok ys => .ok (y :: ys)

theorem pyMapExc_ok_getElem {α β : Type} (f : α → Except String β) :
    ∀ (l : List α) (res : List β), pyMapExc f l = .ok res → ∀ k : ℕ,
      res[k]? = l[k]?.bind fun a => (f a).toOption
  | [], res, h, k => by
    simp only [pyMapExc] at h
    cases h
    simp
  | x :: xs, res, h, k => by
    simp only [pyMapExc] at h
    cases hfx : f x with
    | error e => rw [hfx] at h; cases h
    | ok y =>
      rw [hfx] at h
      cases hrest : pyMapExc f xs with
      | error e => rw [hrest] at h; cases h
      | ok ys =>
        rw [hrest] at h
        cases h
        cases k with
        | zero => simp [hfx, Except.toOption]
        | succ n =>
          simp only [List.getElem?_cons_succ]
          exact pyMapExc_ok_getElem f xs ys hrest n

theorem pyMapExc_ok_length {α β : Type} (f : α → Except String β) :
    ∀ (l : List α) (res : List β), pyMapExc f l = .ok res →
      res.length = l.length
  | [], res, h => by
    simp only [pyMapExc] at h
    cases h
    rfl
  | x :: xs, res, h => by
    simp only [pyMapExc] at h
    cases hfx : f x with
    | error e => rw [hfx] at h; cases h
    | ok y =>
      rw [hfx] at h
      cases hrest : pyMapExc f xs with
      | error e => rw [hrest] at h; cases h
      | ok ys =>
        rw [hrest] at h
        cases h
        simp [pyMapExc_ok_length f xs ys hrest]

/-- Python `bool()` applied to a string: `False` exactly on the empty
string; it never raises. -/
def pyBoolOfStr (s : String) : Bool := s != ""

/-- `get_env(name, default=..., vartype=bool)` as used for the `ENDPOINT`
switch (`css.py` line 250, `cuu.py` line 141): the direct conversion never
raises, so the `eval` fallback of `get_env` is unreachable. -/
def get_env_bool (env : String → Option String) (name : String)
    (default : Bool) : Bool :=
  get_env env name default (fun s => .ok (pyBoolOfStr s))
    (fun _ => (Except.error PyExc.otherError : Except PyExc Bool))
    (fun _ => .error PyExc.otherError)

/-- The timing line printed by both grid builders (`css.py` lines 254-255,
`cuu.py` lines 144-145); the two wall-clock readings are the parameters
`t0` and `t1`. -/
def timingMsg (time t0 t1 : ℕ) : String :=
  "Neighbours grid computation time (time = " ++ toString time ++ "): "
    ++ toString (t1 - t0)

/-- Embeds `css.strain_vorticity_grid` (`css.py` lines 200-266): reads the
wrapped positions of the frame selected by the `ENDPOINT` environment switch,
builds the neighbours grid with cutoff `r_cut`, prints the timing line, maps
`strain_vorticity` over the grid points and reorients both grids with
`correct_grid`.  Returns the printed line together with the pair
`(Sgrid, Cgrid)`. -/
def strain_vorticity_grid (K : ℚ → ℚ) (env : String → Option String)
    (t0 t1 : ℕ) (box_size : ℚ) (Ncases : ℕ) (grid_points : List (ℚ × ℚ))
    (time dt prep_frames : ℕ) (w_traj : ℕ → List (ℚ × ℚ))
    (u_traj : ℕ → ℕ → ℚ × ℚ) (sigma r_cut : ℚ) :
    String × (List (List ℚ) × List (List ℚ)) :=
  let positions := w_traj (prep_frames + time
    + (if get_env_bool env "ENDPOINT" false then dt else 0))
  let nbrs := get_neighbours positions box_size r_cut
  let svs := grid_points.map fun p =>
    strain_vorticity K nbrs p time dt positions u_traj sigma r_cut box_size
  (timingMsg time t0 t1,
   (correct_grid Ncases (svs.map Prod.fst),
    correct_grid Ncases (svs.map Prod.snd)))

/-- Embeds `cuu.displacement_grid` (`cuu.py` lines 88-156): reads the wrapped
positions of the frame selected by the `ENDPOINT` switch, builds the
neighbours grid with cutoff `dL/2`, prints the timing line, maps
`displacement` over the grid points (the first raised exception aborts the
whole map) and reorients the four grids with `correct_grid`. -/
def displacement_grid (env : String → Option String) (t0 t1 : ℕ)
    (box_size : ℚ) (Ncases : ℕ) (grid_points : List (ℚ × ℚ))
    (time dt prep_frames : ℕ) (w_traj : ℕ → List (ℚ × ℚ))
    (u_traj : ℕ → ℕ → ℚ × ℚ) (dL : ℚ) (pysqrt : ℚ → ℚ) :
    String × Except String (List (List (ℚ × ℚ)) × List (List (ℚ × ℚ))
      × List (List (ℚ × ℚ)) × List (List (ℚ × ℚ))) :=
  let positions := w_traj (prep_frames + time
    + (if get_env_bool env "ENDPOINT" false then dt else 0))
  let nbrs := get_neighbours positions box_size (dL / 2)
  (timingMsg time t0 t1,
   (pyMapExc (fun p =>
      displacement pysqrt nbrs p time dt positions u_traj dL box_size)
      grid_points).map fun res =>
     (correct_grid Ncases (res.map fun r => r.1),
      correct_grid Ncases (res.map fun r => r.2.1),
      correct_grid Ncases (res.map fun r => r.2.2.1),
      correct_grid Ncases (res.map fun r => r.2.2.2)))

/-- C6: the grids returned by `strain_vorticity_grid` and (when it returns at
all) by `displacement_grid` have `Ncases` rows of `Ncases` entries each, and
the value computed at the query-grid point at flat index `i*Ncases + j`
(`x`-index `i` outer, `y`-index `j` inner) is stored at row `Ncases - 1 - j`
and column `i`. -/
theorem grid_orientation (K : ℚ → ℚ) (env : String → Option String)
    (t0 t1 : ℕ) (box_size : ℚ) (Ncases : ℕ) (grid_points : List (ℚ × ℚ))
    (time dt prep_frames : ℕ) (w_traj : ℕ → List (ℚ × ℚ))
    (u_traj : ℕ → ℕ → ℚ × ℚ) (sigma r_cut dL : ℚ) (pysqrt : ℚ → ℚ)
    (p : ℚ × ℚ) (i j : ℕ) (S C : List (List ℚ))
    (nd u w e : List (List (ℚ × ℚ)))
    (hlen : grid_points.length = Ncases * Ncases)
    (hi : i < Ncases) (hj : j < Ncases)
    (hp : grid_points[i * Ncases + j]? = some p)
    (hS : (strain_vorticity_grid K env t0 t1 box_size Ncases grid_points time
      dt prep_frames w_traj u_traj sigma r_cut).2 = (S, C))
    (hok : (displacement_grid env t0 t1 box_size Ncases grid_points time dt
      prep_frames w_traj u_traj dL pysqrt).2 = .ok (nd, u, w, e)) :
    S.length = Ncases ∧ C.length = Ncases
    ∧ (∀ row ∈ S, row.length = Ncases) ∧ (∀ row ∈ C, row.length = Ncases)
    ∧ nd.length = Ncases ∧ u.length = Ncases ∧ w.length = Ncases
    ∧ e.length = Ncases
    ∧ (∀ row ∈ nd, row.length = Ncases) ∧ (∀ row ∈ u, row.length = Ncases)
    ∧ (∀ row ∈ w, row.length = Ncases) ∧ (∀ row ∈ e, row.length = Ncases)
    ∧ (S[Ncases - 1 - j]?.bind fun row => row[i]?)
        = some (strain_vorticity K
            (get_neighbours (w_traj (prep_frames + time
              + (if get_env_bool env "ENDPOINT" false then dt else 0)))
              box_size r_cut) p time dt
            (w_traj (prep_frames + time
              + (if get_env_bool env "ENDPOINT" false then dt else 0)))
            u_traj sigma r_cut box_size).1
    ∧ (C[Ncases - 1 - j]?.bind fun row => row[i]?)
        = some (strain_vorticity K
            (get_neighbours (w_traj (prep_frames + time
              + (if get_env_bool env "ENDPOINT" false then dt else 0)))
              box_size r_cut) p time dt
            (w_traj (prep_frames + time
              + (if get_env_bool env "ENDPOINT" false then dt else 0)))
            u_traj sigma r_cut box_size).2
    ∧ (nd[Ncases - 1 - j]?.bind fun row => row[i]?)
        = ((displacement pysqrt
            (get_neighbours (w_traj (prep_frames + time
              + (if get_env_bool env "ENDPOINT" false then dt else 0)))
              box_size (dL / 2)) p time dt
            (w_traj (prep_frames + time
              + (if get_env_bool env "ENDPOINT" false then dt else 0)))
            u_traj dL box_size).toOption.map fun r => r.1)
    ∧ (u[Ncases - 1 - j]?.bind fun row => row[i]?)
        = ((displacement pysqrt
            (get_neighbours (w_traj (prep_frames + time
              + (if get_env_bool env "ENDPOINT" false then dt else 0)))
              box_size (dL / 2)) p time dt
            (w_traj (prep_frames + time
              + (if get_env_bool env "ENDPOINT" false then dt else 0)))
            u_traj dL box_size).toOption.map fun r => r.2.1)
    ∧ (w[Ncases - 1 - j]?.bind fun row => row[i]?)
        = ((displacement pysqrt
            (get_neighbours (w_traj (prep_frames + time
              + (if get_env_bool env "ENDPOINT" false then dt else 0)))
              box_size (dL / 2)) p time dt
            (w_traj (prep_frames + time
              + (if get_env_bool env "ENDPOINT" false then dt else 0)))
            u_traj dL box_size).toOption.map fun r => r.2.2.1)
    ∧ (e[Ncases - 1 - j]?.bind fun row => row[i]?)
        = ((displacement pysqrt
            (get_neighbours (w_traj (prep_frames + time
              + (if get_env_bool env "ENDPOINT" false then dt else 0)))
              box_size (dL / 2)) p time dt
            (w_traj (prep_frames + time
              + (if get_env_bool env "ENDPOINT" false then dt else 0)))
            u_traj dL box_size).toOption.map fun r => r.2.2.2) := by
  simp only [strain_vorticity_grid] at hS
  rw [Prod.mk.injEq] at hS
  obtain ⟨hS1, hS2⟩ := hS
  simp only [displacement_grid] at hok
  cases hm : pyMapExc (fun p => displacement pysqrt
      (get_neighbours (w_traj (prep_frames + time
        + (if get_env_bool env "ENDPOINT" false then dt else 0)))
        box_size (dL / 2)) p time dt
      (w_traj (prep_frames + time
        + (if get_env_bool env "ENDPOINT" false then dt else 0)))
      u_traj dL box_size) grid_points with
  | error msg =>
    rw [hm] at hok
    simp [Except.map] at hok
  | ok res =>
    rw [hm] at hok
    simp only [Except.map, Except.ok.injEq, Prod.mk.injEq] at hok
    obtain ⟨hnd, hu, hw, he⟩ := hok
    have hreslen : res.length = Ncases * Ncases :=
      (pyMapExc_ok_length _ _ _ hm).trans hlen
    have hresget := pyMapExc_ok_getElem _ _ _ hm (i * Ncases + j)
    rw [hp, Option.some_bind] at hresget
    have hsvs : ((grid_points.map fun q => strain_vorticity K
        (get_neighbours (w_traj (prep_frames + time
          + (if get_env_bool env "ENDPOINT" false then dt else 0)))
          box_size r_cut) q time dt
        (w_traj (prep_frames + time
          + (if get_env_bool env "ENDPOINT" false then dt else 0)))
        u_traj sigma r_cut box_size)).length = Ncases * Ncases := by
      rw [List.length_map, hlen]
    refine ⟨?_, ?_, ?_, ?_, ?_, ?_, ?_, ?_, ?_, ?_, ?_, ?_, ?_, ?_, ?_, ?_,
      ?_, ?_⟩
    · rw [← hS1]; exact correct_grid_length _ _
    · rw [← hS2]; exact correct_grid_length _ _
    · rw [← hS1]
      exact correct_grid_row_length _ _ (by rw [List.length_map]; exact hsvs)
    · rw [← hS2]
      exact correct_grid_row_length _ _ (by rw [List.length_map]; exact hsvs)
    · rw [← hnd]; exact correct_grid_length _ _
    · rw [← hu]; exact correct_grid_length _ _
    · rw [← hw]; exact correct_grid_length _ _
    · rw [← he]; exact correct_grid_length _ _
    · rw [← hnd]
      exact correct_grid_row_length _ _ (by rw [List.length_map, hreslen])
    · rw [← hu]
      exact correct_grid_row_length _ _ (by rw [List.length_map, hreslen])
    · rw [← hw]
      exact correct_grid_row_length _ _ (by rw [List.length_map, hreslen])
    · rw [← he]
      exact correct_grid_row_length _ _ (by rw [List.length_map, hreslen])
    · rw [← hS1, correct_grid_getElem _ _ i j
        (by rw [List.length_map, List.length_map, hlen]) hi hj,
        List.getElem?_map, List.getElem?_map, hp]
      rfl
    · rw [← hS2, correct_grid_getElem _ _ i j
        (by rw [List.length_map, List.length_map, hlen]) hi hj,
        List.getElem?_map, List.getElem?_map, hp]
      rfl
    · rw [← hnd, correct_grid_getElem _ _ i j
        (by rw [List.length_map, hreslen]) hi hj,
        List.getElem?_map, hresget]
    · rw [← hu, correct_grid_getElem _ _ i j
        (by rw [List.length_map, hreslen]) hi hj,
        List.getElem?_map, hresget]
    · rw [← hw, correct_grid_getElem _ _ i j
        (by rw [List.length_map, hreslen]) hi hj,
        List.getElem?_map, hresget]
    · rw [← he, correct_grid_getElem _ _ i j
        (by rw [List.length_map, hreslen]) hi hj,
        List.getElem?_map, hresget]

/-- Witness for C6 at a concrete instance: a 1 × 1 grid with no particles, so
both grid builders return sentinel grids. -/
theorem grid_orientation_witness :
    ([[(0 : ℚ)]] : List (List ℚ)).length = 1
    ∧ (([[(0 : ℚ)]] : List (List ℚ))[0]?.bind fun row => row[0]?) = some 0 :=
  ⟨(grid_orientation (fun _ => 1) (fun _ => none) 0 0 10 1 [(0, 0)] 0 1 0
      (fun _ => []) (fun _ _ => (0, 0)) 1 1 1 (fun _ => 0) (0, 0) 0 0
      [[0]] [[0]] [[(0, 0)]] [[(0, 0)]] [[(0, 0)]] [[(0, 0)]]
      rfl (by decide) (by decide) rfl rfl rfl).1,
   (grid_orientation (fun _ => 1) (fun _ => none) 0 0 10 1 [(0, 0)] 0 1 0
      (fun _ => []) (fun _ _ => (0, 0)) 1 1 1 (fun _ => 0) (0, 0) 0 0
      [[0]] [[0]] [[(0, 0)]] [[(0, 0)]] [[(0, 0)]] [[(0, 0)]]
      rfl (by decide) (by decide) rfl rfl rfl).2.2.2.2.2.2.2.2.2.2.2.2.1⟩

/-- C8: the grids returned by `strain_vorticity_grid` and `displacement_grid`
are pure functions of their explicit arguments and the (immutable, per-run)
`ENDPOINT` configuration: two calls with identical explicit arguments, the
same resolved `ENDPOINT` value and arbitrary wall-clock readings return
identical grids — only the printed timing line can differ. -/
theorem grids_pure_functions (K : ℚ → ℚ) (env env2 : String → Option String)
    (t0 t1 u0 u1 : ℕ) (box_size : ℚ) (Ncases : ℕ)
    (grid_points : List (ℚ × ℚ)) (time dt prep_frames : ℕ)
    (w_traj : ℕ → List (ℚ × ℚ)) (u_traj : ℕ → ℕ → ℚ × ℚ)
    (sigma r_cut dL : ℚ) (pysqrt : ℚ → ℚ)
    (h : get_env_bool env "ENDPOINT" false
      = get_env_bool env2 "ENDPOINT" false) :
    (strain_vorticity_grid K env t0 t1 box_size Ncases grid_points time dt
        prep_frames w_traj u_traj sigma r_cut).2
      = (strain_vorticity_grid K env2 u0 u1 box_size Ncases grid_points time
        dt prep_frames w_traj u_traj sigma r_cut).2
    ∧ (displacement_grid env t0 t1 box_size Ncases grid_points time dt
        prep_frames w_traj u_traj dL pysqrt).2
      = (displacement_grid env2 u0 u1 box_size Ncases grid_points time dt
        prep_frames w_traj u_traj dL pysqrt).2 := by
  constructor
  · simp only [strain_vorticity_grid, h]
  · simp only [displacement_grid, h]

/-- Witness for C8: two environments resolving `ENDPOINT` to the same value
(`false`: one leaves it unset, the other sets it to the empty string, which
Python's `bool` maps to `False`) and different wall-clock readings. -/
theorem grids_pure_functions_witness :
    (strain_vorticity_grid (fun _ => 1) (fun _ => none) 0 3 10 1 [(0, 0)] 0 1
        0 (fun _ => []) (fun _ _ => (0, 0)) 1 1).2
      = (strain_vorticity_grid (fun _ => 1) (fun _ => some "") 4 9 10 1
        [(0, 0)] 0 1 0 (fun _ => []) (fun _ _ => (0, 0)) 1 1).2
    ∧ (displacement_grid (fun _ => none) 0 3 10 1 [(0, 0)] 0 1 0 (fun _ => [])
        (fun _ _ => (0, 0)) 10 (fun _ => 0)).2
      = (displacement_grid (fun _ => some "") 4 9 10 1 [(0, 0)] 0 1 0
        (fun _ => []) (fun _ _ => (0, 0)) 10 (fun _ => 0)).2 :=
  grids_pure_functions (fun _ => 1) (fun _ => none) (fun _ => some "") 0 3 4 9
    10 1 [(0, 0)] 0 1 0 (fun _ => []) (fun _ _ => (0, 0)) 1 1 10 (fun _ => 0)
    rfl

/-- Embeds `np.divide(A, B, out=np.zeros(A.shape), where=(B != 0))`
(`cuu.py` line 371): elementwise division that leaves the `out` value `0`
wherever the divisor is `0`. -/
def np_divide_where (A B : List (List ℚ)) : List (List ℚ) :=
  List.zipWith (List.zipWith fun a b => if b = 0 then 0 else a / b) A B

/-- The module-level 2D-array bindings in scope at `cuu.py` line 371 in
COMPUTE mode: the density correlation is bound as `Cnn2D` (line 361) and the
variable correlations as `Cuu2D`, `Cww2D`, `Cdd2D`, `Cee2D` (lines 361-364).
No binding of the name `Cnn` exists anywhere in the module. -/
def cuu_array_globals (Cnn2D Cuu2D Cww2D Cdd2D Cee2D : List (List ℚ)) :
    List (String × List (List ℚ)) :=
  [("Cnn2D", Cnn2D), ("Cuu2D", Cuu2D), ("Cww2D", Cww2D), ("Cdd2D", Cdd2D),
   ("Cee2D", Cee2D)]

/-- Embeds the density normalization of a 2D correlation field in the 1D
reduction step (`cuu.py` line 371):
`np.divide(C2D, Cnn, out=np.zeros(C2D.shape), where=Cnn!=0)`.  The divisor is
looked up under the name the source actually uses, `Cnn`. -/
def cuu_normalized_C2D (globalsArr : List (String × List (List ℚ)))
    (C2D : List (List ℚ)) : Except String (List (List ℚ)) :=
  (pyLookup globalsArr "Cnn").map fun Cnn2 => np_divide_where C2D Cnn2

/-- C7 (code bug): with every module-level array bound — including the
density correlation `Cnn2D` — the normalization step still raises
`NameError`, because line 371 of `cuu.py` spells the divisor `Cnn`, a name
never bound in the module; the guarded elementwise division itself (shown on
the intended divisor `Cnn2D = [[0, 2]]`) does emit `0` where the reference
is `0` and would complete without raising. -/
theorem cuu_normalization_raises :
    cuu_normalized_C2D (cuu_array_globals [[0, 2]] [[1, 3]] [[1, 1]] [[1, 1]]
        [[1, 1]]) [[1, 3]]
      = .error "NameError: name Cnn is not defined"
    ∧ np_divide_where [[1, 3]] [[0, 2]] = [[0, 3 / 2]] := by
  constructor
  · rfl
  · norm_num [np_divide_where]
